import Mathlib

/-!
Shallow embedding of the alldebrid-aria2 download coordinator.

The definitions below are translated from the repository's Python sources:
`src/database/models.py` (the persisted record), `src/database/crud.py`
(store operations), `src/downloader/queue.py` (admission policy, start
pipeline, reconciliation pass), `src/alldebrid/client.py` (request retry
loop and readiness polling) and `src/api/routes.py` (submit / pause /
resume handlers).  The persistent store is modelled as a list of records
in row order (SQLite rowid = insertion order); engine and resolver
behaviour are inputs supplied as functions, mirroring the awaited calls.
-/

namespace AD

/-- The persisted torrent record, mirroring `Torrent` in
`src/database/models.py` (field defaults included).  `progress` is a
Python float in the source; it is embedded as `Rat` since every value the
code stores in it arises from exact division by 100 or the literal 1.0. -/
structure Torrent where
  hash : String
  name : String
  magnetUri : String := ""
  alldebridId : Option Nat := none
  downloadLink : Option String := none
  size : Int := 0
  downloaded : Int := 0
  uploaded : Int := 0
  progress : Rat := 0
  dlspeed : Int := 0
  upspeed : Int := 0
  state : String := "queued"
  errorMessage : Option String := none
  category : Option String := none
  savePath : String := ""
  aria2Gid : Option String := none
  addedOn : Nat := 0
  completionOn : Option Nat := none
  ratio : Rat := 0
  eta : Int := 0
  deriving Repr, DecidableEq

/-- The configuration fields used by the queue manager, with the defaults
from `Settings` in `src/utils/config.py`. -/
structure Settings where
  simultaneousSmallFiles : Nat := 3
  sizeThresholdGb : Int := 20
  downloadPath : String := "/downloads"
  deriving Repr, DecidableEq

/-- `DownloadQueue._can_start_download` from `src/downloader/queue.py`:
admission decision given the currently downloading records and the
detected storage type (anything other than `"hdd"` takes the SSD branch,
as in the source's `else`). -/
def canStartDownload (s : Settings) (storageType : String)
    (downloading : List Torrent) : Bool :=
  if downloading.isEmpty then
    true
  else if storageType = "hdd" then
    let largeFiles := downloading.filter
      (fun t => t.size > s.sizeThresholdGb * 1024 ^ 3)
    if !largeFiles.isEmpty then
      false
    else
      downloading.length < s.simultaneousSmallFiles
  else
    downloading.length < 5

/-! ### Record store (`src/database/crud.py`)

The store is a list of records in row order.  `update_torrent` looks the
record up by hash and overwrites the supplied fields; since the hash is
unique in the real store, this is embedded as a pointwise map that
rewrites every record carrying that hash. -/

/-- `crud.get_torrent_by_hash`. -/
def getTorrentByHash (db : List Torrent) (h : String) : Option Torrent :=
  db.find? (fun t => t.hash = h)

/-- `crud.get_torrents_by_state`: a filter over the store in row order
(the SQL query carries no ORDER BY, so rows come back in rowid =
insertion order). -/
def getTorrentsByState (db : List Torrent) (s : String) : List Torrent :=
  db.filter (fun t => t.state = s)

/-- `crud.update_torrent`: apply a field update to the record(s) with the
given hash; records with other hashes are untouched, and an unknown hash
is a no-op. -/
def updateTorrentWith (db : List Torrent) (h : String) (f : Torrent → Torrent) :
    List Torrent :=
  db.map (fun t => if t.hash = h then f t else t)

/-- The field update performed by `crud.mark_torrent_error`: it sets
`state="error"`, the error message, and also forces `dlspeed=0`. -/
def errUpdate (msg : String) (t : Torrent) : Torrent :=
  { t with state := "error", errorMessage := some msg, dlspeed := 0 }

/-- `crud.mark_torrent_error`. -/
def markTorrentError (db : List Torrent) (h : String) (msg : String) :
    List Torrent :=
  updateTorrentWith db h (errUpdate msg)

/-- The record built by `crud.create_torrent` (state `queued`, all other
tracked fields at their model defaults). -/
def createTorrent (hash name magnetUri : String) (category : Option String)
    (savePath : String) (addedOn : Nat) : Torrent :=
  { hash := hash, name := name, magnetUri := magnetUri, category := category,
    savePath := savePath, addedOn := addedOn }

/-! ### Engine status and the reconciliation pass
(`DownloadQueue._update_downloading_torrents` in `src/downloader/queue.py`) -/

/-- The status dictionary returned by
`Aria2Manager.get_download_status` for a known GID. `progress` is the
aria2-reported percentage. -/
structure EngineStatus where
  status : String
  totalLength : Int := 0
  completedLength : Int := 0
  downloadSpeed : Int := 0
  progress : Rat := 0
  errorMessage : String := "Unknown error"
  deriving Repr, DecidableEq

/-- The complete-branch update of the reconciliation pass: `downloaded`
and `size` are taken from the engine status, while `progress`, `dlspeed`
and `eta` are forced and `completion_on` is stamped. -/
def completeUpdate (st : EngineStatus) (now : Nat) (t : Torrent) : Torrent :=
  { t with
    progress := 1, dlspeed := 0, downloaded := st.completedLength,
    size := st.totalLength, eta := 0, state := "completed",
    completionOn := some now }

/-- The ordinary progress update of the reconciliation pass (engine state
neither `complete` nor `error`). -/
def progressUpdate (st : EngineStatus) (t : Torrent) : Torrent :=
  { t with
    progress := st.progress / 100, dlspeed := st.downloadSpeed,
    downloaded := st.completedLength, size := st.totalLength,
    eta := if st.downloadSpeed > 0
      then (st.totalLength - st.completedLength) / st.downloadSpeed
      else 0 }

/-- One item's update inside `_update_downloading_torrents`, given the
engine status returned for its GID. -/
def reconcileRecord (st : EngineStatus) (now : Nat) (t : Torrent) : Torrent :=
  if st.status = "complete" then completeUpdate st now t
  else if st.status = "error" then errUpdate st.errorMessage t
  else progressUpdate st t

/-- `DownloadQueue._update_downloading_torrents`: iterate over the
records currently in state `downloading`; skip an item whose GID is unset
(Python truthiness: `None` or `""`) or for which the engine returns no
status; otherwise apply the reconciled field update to that item's
record. -/
def reconStep (engine : String → Option EngineStatus) (now : Nat)
    (acc : List Torrent) (t : Torrent) : List Torrent :=
  match t.aria2Gid with
  | none => acc
  | some gid =>
    if gid = "" then acc
    else
      match engine gid with
      | none => acc
      | some st => updateTorrentWith acc t.hash (reconcileRecord st now)

/-- The reconciliation pass proper: fold the per-item step over the
records currently in state `downloading`. -/
def updateDownloadingTorrents (engine : String → Option EngineStatus)
    (now : Nat) (db : List Torrent) : List Torrent :=
  (getTorrentsByState db "downloading").foldl (reconStep engine now) db

/-! ### Resolver client (`src/alldebrid/client.py`) -/

/-- What one attempt of `AllDebridClient._request` observes: either the
transport raised (`httpx` error from the request itself or
`raise_for_status`), or a JSON body arrived, carrying the AllDebrid
`status` field (`statusError` = the body's `status == "error"`), the
error message extracted from it, and the payload (`data`). -/
inductive ApiResponse where
  | transportError (msg : String)
  | body (statusError : Bool) (errorMsg : String) (payload : String)
  deriving Repr, DecidableEq

/-- The failure message an attempt produces, if it fails: a transport
error's message, or — because the source converts a structured
`status == "error"` body into `raise httpx.HTTPError(error_msg)` inside
the same `try` block — the structured body's error message. -/
def attemptFailMsg : ApiResponse → Option String
  | .transportError m => some m
  | .body true m _ => some m
  | .body false _ _ => none

/-- The `for attempt in range(retries)` loop of `_request`.  `fuel` is
the number of remaining iterations (`retries - attempt`).  A failed
attempt (transport error or structured error body, both caught by the
same `except httpx.HTTPError`) re-raises on the last attempt and
otherwise sleeps `2 ** attempt` seconds and retries.  The returned list
records the sleeps performed, in order. -/
def requestGo (oracle : Nat → ApiResponse) (retries : Nat) :
    Nat → Nat → Except String String × List Nat
  | 0, _ => (.error "All retries failed", [])
  | fuel + 1, attempt =>
    let fail := fun (msg : String) =>
      if attempt = retries - 1 then ((.error msg : Except String String), ([] : List Nat))
      else
        let rest := requestGo oracle retries fuel (attempt + 1)
        (rest.1, 2 ^ attempt :: rest.2)
    match oracle attempt with
    | .transportError msg => fail msg
    | .body statusError errorMsg payload =>
      if statusError then fail errorMsg else (.ok payload, [])

/-- `AllDebridClient._request` with its default `retries=3`: result of
the attempt loop together with the backoff sleeps performed. -/
def request (oracle : Nat → ApiResponse) (retries : Nat) :
    Except String String × List Nat :=
  requestGo oracle retries retries 0

/-- One poll result of `AllDebridClient.get_magnet_status`
(`MagnetStatusResponse`): only the fields the wait loop and the pipeline
read. -/
structure MagnetStatus where
  statusCode : Nat
  links : List String := []
  deriving Repr, DecidableEq

/-- Outcome of `AllDebridClient.wait_for_magnet_ready`: the ready status
(code 4), a `ValueError` on a terminal error code (5, 6, 7, 8 or 11), or
a `TimeoutError` once `elapsed` reaches the timeout. -/
inductive WaitResult where
  | ready (st : MagnetStatus)
  | errorCode (code : Nat)
  | timeout
  deriving Repr, DecidableEq

/-- The polling loop body of `wait_for_magnet_ready`; `fuel` counts the
remaining iterations of `while elapsed < timeout`, `i` indexes the polls
(the i-th call to `get_magnet_status`, supplied by the oracle). -/
def waitGo (statuses : Nat → MagnetStatus) : Nat → Nat → WaitResult
  | 0, _ => .timeout
  | fuel + 1, i =>
    let st := statuses i
    if st.statusCode = 4 then .ready st
    else if st.statusCode = 5 ∨ st.statusCode = 6 ∨ st.statusCode = 7 ∨
        st.statusCode = 8 ∨ st.statusCode = 11 then .errorCode st.statusCode
    else waitGo statuses fuel (i + 1)

/-- Number of iterations of `while elapsed < timeout` when `elapsed`
starts at 0 and grows by `poll_interval` per iteration:
`⌈timeout / poll_interval⌉`. -/
def numPolls (timeout pollInterval : Nat) : Nat :=
  (timeout + pollInterval - 1) / pollInterval

/-- `AllDebridClient.wait_for_magnet_ready` over a poll oracle. -/
def waitForMagnetReady (statuses : Nat → MagnetStatus)
    (timeout pollInterval : Nat) : WaitResult :=
  waitGo statuses (numPolls timeout pollInterval) 0

/-! ### Start pipeline (`DownloadQueue._start_torrent_download`) -/

/-- `MagnetUploadResponse` fields used by the pipeline. -/
structure MagnetUploadResponse where
  id : Nat
  size : Int
  deriving Repr, DecidableEq

/-- `UnlockLinkResponse` fields used by the pipeline. -/
structure UnlockLinkResponse where
  link : String
  filename : String
  filesize : Int
  deriving Repr, DecidableEq

/-- External behaviour the one-item pipeline interacts with: the
resolver upload (which may raise — modelled as `Except` carrying
`str(e)`), the status polls, the unlock call, and
`Aria2Manager.add_download` returning a GID.  Exceptions raised by any of
these are caught by the pipeline's blanket `except` and recorded via
`mark_torrent_error` with the exception's message. -/
structure PipelineEnv where
  upload : Except String MagnetUploadResponse
  statuses : Nat → MagnetStatus
  unlock : String → Except String UnlockLinkResponse
  addDownload : String → String → String → Except String String

/-- The field update persisting the upload result (`alldebrid_id` and the
reported `size`), done before waiting for readiness. -/
def uploadPersist (up : MagnetUploadResponse) (t : Torrent) : Torrent :=
  { t with alldebridId := some up.id, size := up.size }

/-- The final field update of a successful pipeline run:
`state="downloading"`, the engine GID, the unlocked link, the resolved
name and size. -/
def startUpdate (gid : String) (ur : UnlockLinkResponse) (filename : String)
    (t : Torrent) : Torrent :=
  { t with
    state := "downloading", aria2Gid := some gid,
    downloadLink := some ur.link, name := filename, size := ur.filesize }

/-- `DownloadQueue._start_torrent_download` acting on the store.  The
timeout branch catches `TimeoutError` and records the fixed message
`"AllDebrid processing timeout"`; a terminal status code raises
`ValueError("Magnet failed with status code {c}")`, caught by the
blanket handler; an empty link list records
`"No download links available"`. -/
def startTorrentDownload (env : PipelineEnv) (db : List Torrent)
    (t : Torrent) : List Torrent :=
  match env.upload with
  | .error e => markTorrentError db t.hash e
  | .ok up =>
    let db1 := updateTorrentWith db t.hash (uploadPersist up)
    match waitForMagnetReady env.statuses 300 5 with
    | .timeout => markTorrentError db1 t.hash "AllDebrid processing timeout"
    | .errorCode c =>
      markTorrentError db1 t.hash ("Magnet failed with status code " ++ toString c)
    | .ready st =>
      match st.links with
      | [] => markTorrentError db1 t.hash "No download links available"
      | link :: _ =>
        match env.unlock link with
        | .error e => markTorrentError db1 t.hash e
        | .ok ur =>
          let filename := if ur.filename = "" then t.name else ur.filename
          match env.addDownload ur.link filename t.savePath with
          | .error e => markTorrentError db1 t.hash e
          | .ok gid => updateTorrentWith db1 t.hash (startUpdate gid ur filename)

/-! ### Admission pass (`DownloadQueue._process_queued_torrents`) -/

/-- The admission pass: read the `queued` records, return unchanged if
none; read the `downloading` records; if the storage-aware policy allows
admission, run the start pipeline on the first queued record
(`queued[0]`).  The second component lists the records for which the
start pipeline was run this iteration. -/
def processQueuedTorrents (s : Settings) (storageType : String)
    (env : PipelineEnv) (db : List Torrent) : List Torrent × List Torrent :=
  match getTorrentsByState db "queued" with
  | [] => (db, [])
  | t :: _ =>
    let downloading := getTorrentsByState db "downloading"
    if canStartDownload s storageType downloading then
      (startTorrentDownload env db t, [t])
    else
      (db, [])

/-! ### Control API handlers (`src/api/routes.py`) -/

/-- The field update of the pause handler: `state := "paused"`,
unconditionally. -/
def pauseUpdate (t : Torrent) : Torrent :=
  { t with state := "paused" }

/-- The field update of the resume handler: `state := "queued"`. -/
def resumeUpdate (t : Torrent) : Torrent :=
  { t with state := "queued" }

/-- `pause_torrents`: for every supplied hash, call
`crud.update_torrent(session, h, state="paused")` — no state check, an
unknown hash is a silent no-op. -/
def pauseTorrents (db : List Torrent) (hashes : List String) : List Torrent :=
  hashes.foldl (fun acc h => updateTorrentWith acc h pauseUpdate) db

/-- `resume_torrents`: for every supplied hash, look the record up; skip
unknown hashes; set `state := "queued"` only when the record is currently
`paused`. -/
def resumeTorrents (db : List Torrent) (hashes : List String) : List Torrent :=
  hashes.foldl
    (fun acc h =>
      match getTorrentByHash acc h with
      | none => acc
      | some t =>
        if t.state = "paused" then updateTorrentWith acc h resumeUpdate
        else acc)
    db

/-- The hash- and name-derivation helpers of `routes.py`
(`extract_hash_from_magnet`, `extract_name_from_magnet`): pure functions
of the URI, supplied abstractly — the claims about submission depend only
on the derived hash being a function of the URI. -/
structure SubmitCtx where
  extractHash : String → String
  extractName : String → String

/-- The body of `add_torrent` for one URI: derive hash and name; if a
record with that hash already exists, log and `continue` (store
untouched); otherwise create a fresh `queued` record appended to the
store, with the request's save path (or the configured default). -/
def addTorrentOne (ctx : SubmitCtx) (s : Settings) (category : Option String)
    (savepath : Option String) (now : Nat) (db : List Torrent) (uri : String) :
    List Torrent :=
  let h := ctx.extractHash uri
  match getTorrentByHash db h with
  | some _ => db
  | none =>
    let sp := savepath.getD (s.downloadPath ++ "/complete")
    db ++ [createTorrent h (ctx.extractName uri) uri category sp now]

/-- `add_torrent`: split URIs are processed in order and the handler
returns `"Ok."`. -/
def addTorrent (ctx : SubmitCtx) (s : Settings) (category : Option String)
    (savepath : Option String) (now : Nat) (db : List Torrent)
    (uris : List String) : List Torrent × String :=
  (uris.foldl (addTorrentOne ctx s category savepath now) db, "Ok.")

/-! ### Single-record step relation

Every mutation the system applies to one tracked record, as performed by
the pipeline (`_start_torrent_download`), the reconciliation pass
(`_update_downloading_torrents`) and the pause/resume handlers.  The
relation is deliberately a superset of the behaviours reachable in a full
run (for example it does not insist that the pipeline only runs on the
popped head of the queue), so invariants proved over it hold for the real
system. -/
inductive Step : Torrent → Torrent → Prop where
  | uploadPersist (t : Torrent) (up : MagnetUploadResponse) :
      Step t (uploadPersist up t)
  | markError (t : Torrent) (msg : String) :
      Step t (errUpdate msg t)
  | startDownloading (t : Torrent) (gid : String) (ur : UnlockLinkResponse)
      (filename : String) : Step t (startUpdate gid ur filename t)
  | reconcileProgress (t : Torrent) (st : EngineStatus) :
      t.state = "downloading" → st.status ≠ "complete" → st.status ≠ "error" →
      Step t (progressUpdate st t)
  | reconcileComplete (t : Torrent) (st : EngineStatus) (now : Nat) :
      t.state = "downloading" → st.status = "complete" →
      Step t (completeUpdate st now t)
  | pause (t : Torrent) : Step t (pauseUpdate t)
  | resume (t : Torrent) : t.state = "paused" → Step t (resumeUpdate t)

/-- States of one record reachable from its creation by the Control API
submission, through any sequence of system operations. -/
def ReachableFrom (t0 t : Torrent) : Prop :=
  Relation.ReflTransGen Step t0 t

/-! ### Store lemmas -/

theorem hash_errUpdate (msg : String) (t : Torrent) :
    (errUpdate msg t).hash = t.hash := rfl

theorem hash_pauseUpdate (t : Torrent) : (pauseUpdate t).hash = t.hash := rfl

theorem hash_resumeUpdate (t : Torrent) : (resumeUpdate t).hash = t.hash := rfl

theorem hash_completeUpdate (st : EngineStatus) (now : Nat) (t : Torrent) :
    (completeUpdate st now t).hash = t.hash := rfl

theorem hash_progressUpdate (st : EngineStatus) (t : Torrent) :
    (progressUpdate st t).hash = t.hash := rfl

theorem hash_uploadPersist (up : MagnetUploadResponse) (t : Torrent) :
    (uploadPersist up t).hash = t.hash := rfl

theorem hash_startUpdate (gid : String) (ur : UnlockLinkResponse)
    (filename : String) (t : Torrent) :
    (startUpdate gid ur filename t).hash = t.hash := rfl

theorem hash_reconcileRecord (st : EngineStatus) (now : Nat) (t : Torrent) :
    (reconcileRecord st now t).hash = t.hash := by
  unfold reconcileRecord
  split
  · rfl
  · split <;> rfl

/-- Looking up a hash in a pointwise-mapped store, when the map preserves
hashes, finds the mapped original record. -/
theorem getTorrentByHash_map {g : Torrent → Torrent}
    (hg : ∀ t, (g t).hash = t.hash) (db : List Torrent) (h : String) :
    getTorrentByHash (db.map g) h = (getTorrentByHash db h).map g := by
  unfold getTorrentByHash
  have hp : ((fun t => decide (t.hash = h)) ∘ g) = fun t : Torrent => decide (t.hash = h) := by
    funext t
    simp [hg]
  rw [List.find?_map, hp]

/-- Effect of `update_torrent` on lookups, for a hash-preserving field
update. -/
theorem getTorrentByHash_update {f : Torrent → Torrent}
    (hf : ∀ t, (f t).hash = t.hash) (db : List Torrent) (h h' : String) :
    getTorrentByHash (updateTorrentWith db h f) h' =
      (getTorrentByHash db h').map (fun t => if t.hash = h then f t else t) := by
  unfold updateTorrentWith
  exact getTorrentByHash_map (fun t => by by_cases ht : t.hash = h <;> simp [ht, hf]) db h'

/-- A found record carries the hash it was found under. -/
theorem getTorrentByHash_hash {db : List Torrent} {h : String} {t : Torrent}
    (hfind : getTorrentByHash db h = some t) : t.hash = h := by
  have := List.find?_some hfind
  simpa using this

/-- `update_torrent` at one hash does not affect lookups at another. -/
theorem getTorrentByHash_update_ne {f : Torrent → Torrent}
    (hf : ∀ t, (f t).hash = t.hash) (db : List Torrent) {h h' : String}
    (hne : h' ≠ h) :
    getTorrentByHash (updateTorrentWith db h f) h' = getTorrentByHash db h' := by
  rw [getTorrentByHash_update hf]
  cases hfind : getTorrentByHash db h' with
  | none => rfl
  | some t =>
    have ht := getTorrentByHash_hash hfind
    simp [ht, hne]

/-- In a store whose hashes are distinct, looking a member record up by
its own hash finds exactly it. -/
theorem getTorrentByHash_of_mem {db : List Torrent} {t : Torrent}
    (hnd : (db.map Torrent.hash).Nodup) (ht : t ∈ db) :
    getTorrentByHash db t.hash = some t := by
  induction db with
  | nil => simp at ht
  | cons a l ih =>
    rcases List.mem_cons.mp ht with rfl | htl
    · simp [getTorrentByHash, List.find?_cons]
    · have ha : a.hash ≠ t.hash := by
        intro hEq
        have : t.hash ∈ l.map Torrent.hash := List.mem_map_of_mem _ htl
        simp only [List.map_cons, List.nodup_cons] at hnd
        exact hnd.1 (hEq ▸ this)
      simp only [getTorrentByHash, List.find?_cons]
      have : (decide (a.hash = t.hash)) = false := by simpa using ha
      rw [this]
      exact ih (by simpa using (List.nodup_cons.mp (by simpa using hnd)).2) htl

/-- Pointwise effect of the pause handler on lookups: every record whose
hash was supplied is set to `paused`, every other record is untouched. -/
theorem pauseTorrents_char (hashes : List String) :
    ∀ (db : List Torrent) (h : String),
      getTorrentByHash (pauseTorrents db hashes) h =
        (getTorrentByHash db h).map
          (fun t => if h ∈ hashes then pauseUpdate t else t) := by
  induction hashes with
  | nil =>
    intro db h
    simp only [pauseTorrents, List.foldl_nil, List.not_mem_nil, if_false]
    cases getTorrentByHash db h <;> rfl
  | cons h0 hs ih =>
    intro db h
    have hstep : pauseTorrents db (h0 :: hs) =
        pauseTorrents (updateTorrentWith db h0 pauseUpdate) hs := rfl
    rw [hstep, ih, getTorrentByHash_update hash_pauseUpdate]
    cases hfind : getTorrentByHash db h with
    | none => rfl
    | some t =>
      have ht := getTorrentByHash_hash hfind
      by_cases hh : h = h0
      · subst hh
        have hidem : pauseUpdate (pauseUpdate t) = pauseUpdate t := rfl
        by_cases hmem : h ∈ hs <;> simp [ht, hmem, hidem]
      · have htne : t.hash ≠ h0 := by rw [ht]; exact hh
        by_cases hmem : h ∈ hs <;> simp [htne, hmem, hh]

/-- Pointwise effect of the resume handler on lookups: a supplied hash is
re-queued exactly when its record is currently `paused`; everything else
is untouched. -/
theorem resumeTorrents_char (hashes : List String) :
    ∀ (db : List Torrent) (h : String),
      getTorrentByHash (resumeTorrents db hashes) h =
        (getTorrentByHash db h).map
          (fun t => if h ∈ hashes ∧ t.state = "paused" then resumeUpdate t else t) := by
  induction hashes with
  | nil =>
    intro db h
    simp only [resumeTorrents, List.foldl_nil, List.not_mem_nil, false_and, if_false]
    cases getTorrentByHash db h <;> rfl
  | cons h0 hs ih =>
    intro db h
    have hstep : resumeTorrents db (h0 :: hs) =
        resumeTorrents
          (match getTorrentByHash db h0 with
           | none => db
           | some t =>
             if t.state = "paused" then updateTorrentWith db h0 resumeUpdate
             else db) hs := rfl
    rw [hstep]
    cases hfind0 : getTorrentByHash db h0 with
    | none =>
      rw [ih]
      cases hfind : getTorrentByHash db h with
      | none => rfl
      | some t =>
        have ht := getTorrentByHash_hash hfind
        by_cases hh : h = h0
        · subst hh
          rw [hfind0] at hfind
          exact absurd hfind (by simp)
        · by_cases hmem : h ∈ hs <;>
            by_cases hp : t.state = "paused" <;> simp [hmem, hh, hp]
    | some s =>
      by_cases hsp : s.state = "paused"
      · simp only [hsp, if_true]
        rw [ih, getTorrentByHash_update hash_resumeUpdate]
        cases hfind : getTorrentByHash db h with
        | none => rfl
        | some t =>
          have ht := getTorrentByHash_hash hfind
          by_cases hh : h = h0
          · subst hh
            have hts : t = s := by
              rw [hfind] at hfind0
              exact Option.some.inj hfind0
            subst hts
            simp [ht, hsp, resumeUpdate]
          · have htne : t.hash ≠ h0 := by rw [ht]; exact hh
            by_cases hmem : h ∈ hs <;>
              by_cases hp : t.state = "paused" <;> simp [htne, hmem, hh, hp]
      · simp only [hsp, if_false]
        rw [ih]
        cases hfind : getTorrentByHash db h with
        | none => rfl
        | some t =>
          by_cases hh : h = h0
          · subst hh
            have hts : t = s := by
              rw [hfind] at hfind0
              exact Option.some.inj hfind0
            subst hts
            by_cases hmem : h ∈ hs <;> simp [hmem, hsp]
          · by_cases hmem : h ∈ hs <;>
              by_cases hp : t.state = "paused" <;> simp [hmem, hh, hp]

/-- What one reconciliation cycle does to a single record, as a function
of its own fields and the engine's answer for its GID. -/
def reconOne (engine : String → Option EngineStatus) (now : Nat)
    (t : Torrent) : Torrent :=
  if t.state = "downloading" then
    match t.aria2Gid with
    | none => t
    | some gid =>
      if gid = "" then t
      else
        match engine gid with
        | none => t
        | some st => reconcileRecord st now t
  else t

/-- One reconciliation step leaves lookups at other hashes unchanged. -/
theorem reconStep_ne (engine : String → Option EngineStatus) (now : Nat)
    (acc : List Torrent) (u : Torrent) {h : String} (hne : h ≠ u.hash) :
    getTorrentByHash (reconStep engine now acc u) h = getTorrentByHash acc h := by
  unfold reconStep
  cases u.aria2Gid with
  | none => rfl
  | some gid =>
    by_cases hg : gid = ""
    · simp [hg]
    · simp only [hg, if_false]
      cases engine gid with
      | none => rfl
      | some st =>
        exact getTorrentByHash_update_ne (hash_reconcileRecord st now) acc hne

/-- Folding reconciliation steps over items that all carry other hashes
leaves a lookup unchanged. -/
theorem foldl_reconStep_untouched (engine : String → Option EngineStatus)
    (now : Nat) (L : List Torrent) :
    ∀ (acc : List Torrent) (h : String), (∀ u ∈ L, u.hash ≠ h) →
      getTorrentByHash (L.foldl (reconStep engine now) acc) h =
        getTorrentByHash acc h := by
  induction L with
  | nil =>
    intro acc h _
    rfl
  | cons u rest ih =>
    intro acc h hL
    rw [List.foldl_cons, ih _ _ (fun v hv => hL v (List.mem_cons_of_mem _ hv))]
    exact reconStep_ne engine now acc u (hL u (List.mem_cons_self _ _)).symm

/-- One reconciliation step applied to an item updates its own record as
`reconOne` prescribes. -/
theorem reconStep_self (engine : String → Option EngineStatus) (now : Nat)
    (acc : List Torrent) (t : Torrent)
    (hacc : getTorrentByHash acc t.hash = some t)
    (hstate : t.state = "downloading") :
    getTorrentByHash (reconStep engine now acc t) t.hash =
      some (reconOne engine now t) := by
  cases hgid : t.aria2Gid with
  | none =>
    simp [reconStep, reconOne, hstate, hgid, hacc]
  | some gid =>
    by_cases hg : gid = ""
    · simp [reconStep, reconOne, hstate, hgid, hg, hacc]
    · cases hst : engine gid with
      | none => simp [reconStep, reconOne, hstate, hgid, hg, hst, hacc]
      | some st =>
        simp only [reconStep, reconOne, hstate, hgid, hg, hst, if_false, if_true,
          getTorrentByHash_update (hash_reconcileRecord st now), hacc]
        simp

/-- Characterization of the reconciliation pass on a store with distinct
hashes: each record is updated exactly as `reconOne` prescribes. -/
theorem updateDownloadingTorrents_char (engine : String → Option EngineStatus)
    (now : Nat) (db : List Torrent) (hnd : (db.map Torrent.hash).Nodup)
    {t : Torrent} (ht : t ∈ db) :
    getTorrentByHash (updateDownloadingTorrents engine now db) t.hash =
      some (reconOne engine now t) := by
  unfold updateDownloadingTorrents
  have hinj := List.inj_on_of_nodup_map hnd
  by_cases hstate : t.state = "downloading"
  · have htL : t ∈ getTorrentsByState db "downloading" :=
      List.mem_filter.mpr ⟨ht, by simpa using hstate⟩
    obtain ⟨l1, l2, hL⟩ := List.append_of_mem htL
    have hLnd : (getTorrentsByState db "downloading").Nodup :=
      (List.Nodup.of_map _ hnd).sublist (List.filter_sublist db)
    have hne : ∀ u, u ∈ l1 ∨ u ∈ l2 → u.hash ≠ t.hash := by
      intro u hu hEq
      have huL : u ∈ getTorrentsByState db "downloading" := by
        rw [hL]
        rcases hu with hu | hu
        · exact List.mem_append_left _ hu
        · exact List.mem_append_right _ (List.mem_cons_of_mem _ hu)
      have hut : u = t := hinj (List.mem_of_mem_filter huL) ht hEq
      subst hut
      rw [hL] at hLnd
      rcases hu with hu | hu
      · exact (List.disjoint_of_nodup_append hLnd) hu (List.mem_cons_self _ _)
      · exact (List.nodup_cons.mp (List.Nodup.of_append_right hLnd)).1 hu
    rw [hL, List.foldl_append, List.foldl_cons]
    have h1 : getTorrentByHash
        (l1.foldl (reconStep engine now) db) t.hash = some t := by
      rw [foldl_reconStep_untouched engine now l1 db t.hash
        (fun u hu => hne u (Or.inl hu))]
      exact getTorrentByHash_of_mem hnd ht
    rw [foldl_reconStep_untouched engine now l2 _ t.hash
      (fun u hu => hne u (Or.inr hu))]
    exact reconStep_self engine now _ t h1 hstate
  · have huntouched : ∀ u ∈ getTorrentsByState db "downloading",
        u.hash ≠ t.hash := by
      intro u hu hEq
      have hust : u.state = "downloading" := by
        simpa using List.of_mem_filter hu
      have : u = t := hinj (List.mem_of_mem_filter hu) ht hEq
      exact hstate (this ▸ hust)
    rw [foldl_reconStep_untouched engine now _ db t.hash huntouched,
      getTorrentByHash_of_mem hnd ht]
    simp [reconOne, hstate]

/-! ### Retry / polling loop lemmas -/

/-- A poll answer that keeps `wait_for_magnet_ready` looping: neither the
ready code 4 nor one of the terminal error codes 5, 6, 7, 8, 11. -/
def nonTerminalPoll (st : MagnetStatus) : Prop :=
  st.statusCode ≠ 4 ∧ st.statusCode ≠ 5 ∧ st.statusCode ≠ 6 ∧
    st.statusCode ≠ 7 ∧ st.statusCode ≠ 8 ∧ st.statusCode ≠ 11

instance (st : MagnetStatus) : Decidable (nonTerminalPoll st) := by
  unfold nonTerminalPoll
  infer_instance

/-- If every poll the loop can reach keeps it looping, the loop times
out. -/
theorem waitGo_timeout (statuses : Nat → MagnetStatus) :
    ∀ (fuel i0 : Nat), (∀ j, j < fuel → nonTerminalPoll (statuses (i0 + j))) →
      waitGo statuses fuel i0 = .timeout := by
  intro fuel
  induction fuel with
  | zero =>
    intro i0 _
    rfl
  | succ n ih =>
    intro i0 hall
    have h0 := hall 0 (Nat.succ_pos n)
    simp only [Nat.add_zero] at h0
    obtain ⟨h4, h5, h6, h7, h8, h11⟩ := h0
    simp only [waitGo, h4, h5, h6, h7, h8, h11, if_false, or_self, or_false,
      false_or]
    have : ∀ j, j < n → nonTerminalPoll (statuses (i0 + 1 + j)) := by
      intro j hj
      have := hall (j + 1) (Nat.succ_lt_succ hj)
      simpa [Nat.add_assoc, Nat.add_comm 1 j] using this
    exact ih (i0 + 1) this

/-- The readiness wait with the pipeline's arguments (timeout 300s, poll
interval 5s) performs 60 polls; if none is terminal it raises
`TimeoutError`. -/
theorem waitForMagnetReady_timeout (statuses : Nat → MagnetStatus)
    (hall : ∀ j, j < 60 → nonTerminalPoll (statuses j)) :
    waitForMagnetReady statuses 300 5 = .timeout := by
  have h60 : numPolls 300 5 = 60 := by norm_num [numPolls]
  unfold waitForMagnetReady
  rw [h60]
  exact waitGo_timeout statuses 60 0 (by simpa using hall)

/-- A failed non-final attempt of the `_request` loop sleeps `2^attempt`
and continues with the next attempt. -/
theorem requestGo_fail_step (oracle : Nat → ApiResponse) (retries : Nat)
    {attempt : Nat} {m : String} (hm : attemptFailMsg (oracle attempt) = some m)
    (hlt : attempt ≠ retries - 1) (fuel : Nat) :
    requestGo oracle retries (fuel + 1) attempt =
      ((requestGo oracle retries fuel (attempt + 1)).1,
        2 ^ attempt :: (requestGo oracle retries fuel (attempt + 1)).2) := by
  cases ho : oracle attempt with
  | transportError msg =>
    simp [requestGo, ho, hlt]
  | body statusError errorMsg payload =>
    cases statusError with
    | false => simp [attemptFailMsg, ho] at hm
    | true => simp [requestGo, ho, hlt]

/-- A failed final attempt of the `_request` loop re-raises that
attempt's failure. -/
theorem requestGo_fail_last (oracle : Nat → ApiResponse) (retries : Nat)
    {attempt : Nat} {m : String} (hm : attemptFailMsg (oracle attempt) = some m)
    (heq : attempt = retries - 1) (fuel : Nat) :
    requestGo oracle retries (fuel + 1) attempt = (.error m, []) := by
  subst heq
  cases ho : oracle (retries - 1) with
  | transportError msg =>
    simp only [attemptFailMsg, ho, Option.some.injEq] at hm
    simp [requestGo, ho, hm]
  | body statusError errorMsg payload =>
    cases statusError with
    | false => simp [attemptFailMsg, ho] at hm
    | true =>
      simp only [attemptFailMsg, ho, Option.some.injEq] at hm
      simp [requestGo, ho, hm]

/-- A successful attempt (2xx body whose `status` is not `"error"`)
returns its payload at once. -/
theorem requestGo_success (oracle : Nat → ApiResponse) (retries : Nat)
    {attempt : Nat} {em p : String} (ho : oracle attempt = .body false em p)
    (fuel : Nat) :
    requestGo oracle retries (fuel + 1) attempt = (.ok p, []) := by
  simp [requestGo, ho]

/-! ### Single-record invariant machinery -/

/-- An invariant preserved by every single-record step holds in every
reachable state. -/
theorem ReachableFrom_invariant {P : Torrent → Prop}
    (hP : ∀ {a b : Torrent}, Step a b → P a → P b) {t0 t : Torrent}
    (hr : ReachableFrom t0 t) (h0 : P t0) : P t := by
  induction hr with
  | refl => exact h0
  | tail _ hbc ih => exact hP hbc ih

/-- Every step preserves "`state = error` implies the error message is
set": the only transition into `error` stores a message. -/
theorem step_preserves_error_msg {a b : Torrent} (hs : Step a b)
    (h : a.state = "error" → a.errorMessage.isSome) :
    b.state = "error" → b.errorMessage.isSome := by
  cases hs with
  | uploadPersist up => exact h
  | markError msg =>
    intro _
    rfl
  | startDownloading gid ur filename =>
    intro he
    simp [startUpdate] at he
  | reconcileProgress st h1 h2 h3 => exact h
  | reconcileComplete st now h1 h2 =>
    intro he
    simp [completeUpdate] at he
  | pause =>
    intro he
    simp [pauseUpdate] at he
  | resume h1 =>
    intro he
    simp [resumeUpdate] at he

/-- Every step preserves "`state = completed` implies `progress = 1`":
the only transition into `completed` forces the progress to 1. -/
theorem step_preserves_completed_progress {a b : Torrent} (hs : Step a b)
    (h : a.state = "completed" → a.progress = 1) :
    b.state = "completed" → b.progress = 1 := by
  cases hs with
  | uploadPersist up => exact h
  | markError msg =>
    intro he
    simp [errUpdate] at he
  | startDownloading gid ur filename =>
    intro he
    simp [startUpdate] at he
  | reconcileProgress st h1 h2 h3 =>
    intro he
    rw [show (progressUpdate st a).state = a.state from rfl, h1] at he
    simp at he
  | reconcileComplete st now h1 h2 =>
    intro _
    rfl
  | pause =>
    intro he
    simp [pauseUpdate] at he
  | resume h1 =>
    intro he
    simp [resumeUpdate] at he

/-! ### The claims -/

/-- **C1.** For every list of currently-downloading items, the admission
check returns true when the list is empty; with storage class `hdd` it
returns false if any downloading item's size exceeds the 20 GiB
large-file cutoff, and otherwise returns true iff the number of
downloading items is below the small-file cap of 3; with storage class
`ssd` it returns true iff the number of downloading items is below 5.
(Stated with the configuration defaults of `src/utils/config.py`.) -/
theorem claim1_admission_policy (l : List Torrent) (storageType : String) :
    (l = [] → canStartDownload {} storageType l = true) ∧
    ((∃ t ∈ l, t.size > 20 * 1024 ^ 3) →
      canStartDownload {} "hdd" l = false) ∧
    ((∀ t ∈ l, t.size ≤ 20 * 1024 ^ 3) →
      (canStartDownload {} "hdd" l = true ↔ l.length < 3)) ∧
    (canStartDownload {} "ssd" l = true ↔ l.length < 5) := by
  refine ⟨?_, ?_, ?_, ?_⟩
  · rintro rfl
    rfl
  · rintro ⟨t, htl, hts⟩
    have hne : l.isEmpty = false := by
      cases l
      · simp at htl
      · rfl
    have hmem : t ∈ l.filter
        (fun u => decide (u.size > ({} : Settings).sizeThresholdGb * 1024 ^ 3)) :=
      List.mem_filter.mpr ⟨htl, by simpa using hts⟩
    have hfil : (l.filter
        (fun u => decide (u.size >
          ({} : Settings).sizeThresholdGb * 1024 ^ 3))).isEmpty = false := by
      cases hc : l.filter
          (fun u => decide (u.size > ({} : Settings).sizeThresholdGb * 1024 ^ 3))
      · rw [hc] at hmem
        simp at hmem
      · rfl
    simp only [canStartDownload, hne, hfil]
    simp
  · intro hall
    by_cases hl : l = []
    · subst hl
      simp [canStartDownload]
    · have hne : l.isEmpty = false := by simpa [List.isEmpty_iff] using hl
      have hfil : (l.filter
          (fun u => decide (u.size >
            ({} : Settings).sizeThresholdGb * 1024 ^ 3))).isEmpty = true := by
        rw [List.isEmpty_iff, List.filter_eq_nil_iff]
        intro a ha
        have := hall a ha
        simpa using (by omega : ¬ a.size > 20 * 1024 ^ 3)
      simp only [canStartDownload, hne, hfil]
      simp
  · by_cases hl : l = []
    · subst hl
      simp [canStartDownload]
    · have hne : l.isEmpty = false := by simpa [List.isEmpty_iff] using hl
      simp only [canStartDownload, hne]
      simp

/-- A 25 GiB record in state `downloading`, for concrete admission
checks. -/
def bigTorrent : Torrent :=
  { hash := "b1", name := "big", size := 25 * 1024 ^ 3, state := "downloading" }

/-- Witness for C1 at concrete inputs: one oversized downloading item
blocks HDD admission, and an empty list always admits. -/
theorem claim1_admission_policy_witness :
    canStartDownload {} "hdd" [bigTorrent] = false ∧
    canStartDownload {} "hdd" ([] : List Torrent) = true :=
  ⟨(claim1_admission_policy [bigTorrent] "hdd").2.1
      ⟨bigTorrent, by decide, by decide⟩,
    (claim1_admission_policy [] "hdd").1 rfl⟩

/-- Oracle for the C2 counterexample: the first attempt yields a
structured AllDebrid error body (`status == "error"`), the second a
successful body. -/
def cexOracle : Nat → ApiResponse
  | 0 => .body true "MAGNET_INVALID_URI" ""
  | _ => .body false "" "payload"

/-- **C2 (counterexample).** The claim says a structured error response
is never retried and is surfaced immediately as a failure on the first
attempt it occurs.  But with a structured error on attempt 0, `_request`
sleeps `2^0` seconds and retries: the call succeeds on attempt 1 instead
of failing — the structured error was retried, not surfaced. -/
theorem claim2_counterexample :
    cexOracle 0 = .body true "MAGNET_INVALID_URI" "" ∧
    request cexOracle 3 = (.ok "payload", [1]) :=
  ⟨rfl, rfl⟩

/-- **C2 (amended).** Every resolver API request retries a failed
attempt — a transient transport failure *and equally a structured error
response* (the code converts the latter into an `httpx.HTTPError` caught
by the same handler) — up to the fixed cap of 3 attempts, sleeping
`2^attempt` seconds between attempts (so the backoff delay doubles per
attempt); a failure on the final attempt is surfaced with that attempt's
message. -/
theorem claim2_retry_behavior (oracle : Nat → ApiResponse) :
    (∀ k, k < 3 → (∀ i, i < k → (attemptFailMsg (oracle i)).isSome) →
      ∀ em p, oracle k = .body false em p →
        request oracle 3 = (.ok p, (List.range k).map (fun i => 2 ^ i))) ∧
    (∀ m0 m1 m2, attemptFailMsg (oracle 0) = some m0 →
      attemptFailMsg (oracle 1) = some m1 →
      attemptFailMsg (oracle 2) = some m2 →
      request oracle 3 = (.error m2, [1, 2])) := by
  constructor
  · intro k hk hfail em p ho
    interval_cases k
    · rw [show request oracle 3 = requestGo oracle 3 (2 + 1) 0 from rfl,
        requestGo_success oracle 3 ho 2]
      rfl
    · obtain ⟨m0, hm0⟩ := Option.isSome_iff_exists.mp (hfail 0 (by norm_num))
      rw [show request oracle 3 = requestGo oracle 3 (2 + 1) 0 from rfl,
        requestGo_fail_step oracle 3 hm0 (by norm_num) 2,
        requestGo_success oracle 3 ho 1]
      rfl
    · obtain ⟨m0, hm0⟩ := Option.isSome_iff_exists.mp (hfail 0 (by norm_num))
      obtain ⟨m1, hm1⟩ := Option.isSome_iff_exists.mp (hfail 1 (by norm_num))
      rw [show request oracle 3 = requestGo oracle 3 (2 + 1) 0 from rfl,
        requestGo_fail_step oracle 3 hm0 (by norm_num) 2,
        requestGo_fail_step oracle 3 hm1 (by norm_num) 1,
        requestGo_success oracle 3 ho 0]
      rfl
  · intro m0 m1 m2 hm0 hm1 hm2
    rw [show request oracle 3 = requestGo oracle 3 (2 + 1) 0 from rfl,
      requestGo_fail_step oracle 3 hm0 (by norm_num) 2,
      requestGo_fail_step oracle 3 hm1 (by norm_num) 1,
      requestGo_fail_last oracle 3 hm2 (by norm_num) 0]
    rfl

/-- Oracle for the C2 witness: a transport failure, then success. -/
def wOracle : Nat → ApiResponse
  | 0 => .transportError "connect timeout"
  | _ => .body false "" "data"

/-- Witness for the amended C2: one transport failure is retried after a
1-second sleep and the second attempt's payload is returned. -/
theorem claim2_retry_behavior_witness :
    request wOracle 3 = (.ok "data", [1]) :=
  (claim2_retry_behavior wOracle).1 1 (by norm_num)
    (fun i hi => by
      interval_cases i
      simp [wOracle, attemptFailMsg])
    "" "data" rfl

/-- **C3.** Whenever admission is allowed and there are queued records,
the admission pass runs the start pipeline for exactly one queued record:
the head of the queued list, which — because rows are stored in insertion
order and `added_at` is stamped at creation (expressed by the
`Pairwise` hypothesis on the store) — is a queued record with the
earliest `added_at`. -/
theorem claim3_admission_pops_earliest (s : Settings) (storageType : String)
    (env : PipelineEnv) (db : List Torrent)
    (hq : getTorrentsByState db "queued" ≠ [])
    (hcan : canStartDownload s storageType
      (getTorrentsByState db "downloading") = true)
    (hsort : db.Pairwise (fun a b => a.addedOn ≤ b.addedOn)) :
    ∃ t, (processQueuedTorrents s storageType env db).2 = [t] ∧
      t ∈ db ∧ t.state = "queued" ∧
      ∀ u ∈ db, u.state = "queued" → t.addedOn ≤ u.addedOn := by
  cases hq' : getTorrentsByState db "queued" with
  | nil => exact absurd hq' hq
  | cons t rest =>
    have htf : t ∈ getTorrentsByState db "queued" := by
      rw [hq']
      exact List.mem_cons_self t rest
    refine ⟨t, ?_, List.mem_of_mem_filter htf, by simpa using List.of_mem_filter htf, ?_⟩
    · simp [processQueuedTorrents, hq', hcan]
    · intro u hu hust
      have huq : u ∈ getTorrentsByState db "queued" :=
        List.mem_filter.mpr ⟨hu, by simpa using hust⟩
      have hp : (getTorrentsByState db "queued").Pairwise
          (fun a b => a.addedOn ≤ b.addedOn) := hsort.filter _
      rw [hq'] at huq hp
      rw [List.pairwise_cons] at hp
      rcases List.mem_cons.mp huq with rfl | hur
      · exact le_refl _
      · exact hp.1 u hur

/-- Queued fixtures for the C3 witness. -/
def q1 : Torrent := { hash := "q1", name := "one", addedOn := 1 }

def q2 : Torrent := { hash := "q2", name := "two", addedOn := 2 }

/-- A pipeline environment whose external calls all fail; the C3 witness
only observes which item the pass popped. -/
def cEnv : PipelineEnv :=
  { upload := .error "offline", statuses := fun _ => { statusCode := 0 },
    unlock := fun _ => .error "offline",
    addDownload := fun _ _ _ => .error "offline" }

/-- Witness for C3 at a concrete two-element queue. -/
theorem claim3_admission_pops_earliest_witness :
    ∃ t, (processQueuedTorrents {} "hdd" cEnv [q1, q2]).2 = [t] ∧
      t ∈ [q1, q2] ∧ t.state = "queued" ∧
      ∀ u ∈ [q1, q2], u.state = "queued" → t.addedOn ≤ u.addedOn :=
  claim3_admission_pops_earliest {} "hdd" cEnv [q1, q2] (by decide) (by decide)
    (by decide)

/-! Fixtures for C4: a record created by submission, admitted and handed
to the engine, then reconciled `complete` while the engine reports fewer
completed bytes than total bytes. -/

def created4 : Torrent := createTorrent "c4" "n4" "magnet:c4" none "/dl" 0

def up4 : MagnetUploadResponse := { id := 9, size := 10 }

def ur4 : UnlockLinkResponse :=
  { link := "http://host/f", filename := "f", filesize := 10 }

def downloading4 : Torrent := startUpdate "gid4" ur4 "f" (uploadPersist up4 created4)

/-- An engine `complete` report whose completed length disagrees with its
total length. -/
def stBad4 : EngineStatus :=
  { status := "complete", totalLength := 10, completedLength := 5 }

def badComplete4 : Torrent := completeUpdate stBad4 7 downloading4

/-- An engine `complete` report with agreeing lengths, for the C4
witness. -/
def stGood4 : EngineStatus :=
  { status := "complete", totalLength := 10, completedLength := 10 }

theorem reach4 : ReachableFrom created4 badComplete4 :=
  Relation.ReflTransGen.head (Step.uploadPersist created4 up4)
    (Relation.ReflTransGen.head
      (Step.startDownloading (uploadPersist up4 created4) "gid4" ur4 "f")
      (Relation.ReflTransGen.single
        (Step.reconcileComplete downloading4 stBad4 7 rfl rfl)))

/-- **C4 (counterexample).** A record reachable through the submission,
start-pipeline and reconciliation operations can be `completed` with
`downloaded ≠ size`: the completing update forces `progress = 1` but
copies `downloaded` and `size` verbatim from the engine status, which the
code never cross-checks. -/
theorem claim4_counterexample :
    ReachableFrom created4 badComplete4 ∧
    badComplete4.state = "completed" ∧
    badComplete4.progress = 1 ∧
    badComplete4.downloaded ≠ badComplete4.size :=
  ⟨reach4, rfl, rfl, by decide⟩

/-- **C4 (amended).** In every reachable state, `state = completed`
implies `progress = 1`; `downloaded = size` additionally holds for the
completing update exactly when the engine's `complete` report carried
`completed_length = total_length` (the code copies both fields from the
engine instead of forcing them equal). -/
theorem claim4_completed_invariant :
    (∀ (h n m : String) (c : Option String) (sp : String) (a : Nat)
        (t : Torrent), ReachableFrom (createTorrent h n m c sp a) t →
        t.state = "completed" → t.progress = 1) ∧
    (∀ (st : EngineStatus) (now : Nat) (t : Torrent),
      st.completedLength = st.totalLength →
      (completeUpdate st now t).downloaded = (completeUpdate st now t).size) := by
  constructor
  · intro h n m c sp a t hr
    exact ReachableFrom_invariant
      (fun hs hp => step_preserves_completed_progress hs hp) hr
      (by
        intro h0
        simp only [createTorrent] at h0
        exact absurd h0 (by decide))
  · intro st now t hlen
    simp [completeUpdate, hlen]

/-- Witness for the amended C4 at concrete inputs. -/
theorem claim4_completed_invariant_witness :
    badComplete4.progress = 1 ∧
    (completeUpdate stGood4 7 created4).downloaded =
      (completeUpdate stGood4 7 created4).size :=
  ⟨claim4_completed_invariant.1 "c4" "n4" "magnet:c4" none "/dl" 0
      badComplete4 reach4 rfl,
    claim4_completed_invariant.2 stGood4 7 created4 rfl⟩

/-! Fixtures for C5: a record whose pipeline failed, then explicitly
paused — the error message survives the pause. -/

def created5 : Torrent := createTorrent "c5" "n5" "magnet:c5" none "/dl" 0

def errored5 : Torrent := errUpdate "boom" created5

def pausedErr5 : Torrent := pauseUpdate errored5

theorem reach5e : ReachableFrom created5 errored5 :=
  Relation.ReflTransGen.single (Step.markError created5 "boom")

theorem reach5 : ReachableFrom created5 pausedErr5 :=
  Relation.ReflTransGen.head (Step.markError created5 "boom")
    (Relation.ReflTransGen.single (Step.pause errored5))

/-- **C5 (counterexample).** `error_message` non-empty iff
`state = error` fails: pausing an errored record keeps its non-empty
error message while moving the state to `paused`. -/
theorem claim5_counterexample :
    ReachableFrom created5 pausedErr5 ∧
    pausedErr5.errorMessage = some "boom" ∧
    pausedErr5.state = "paused" ∧
    pausedErr5.state ≠ "error" :=
  ⟨reach5, rfl, rfl, by decide⟩

/-- **C5 (amended).** In every state reachable through the system's
operations (pipeline failure, reconciliation, pause, resume),
`state = error` implies `error_message` is set — the only transition into
`error` stores the supplied message.  The converse direction of the
original claim is false (see the counterexample): a later pause keeps the
message while leaving `error`. -/
theorem claim5_error_message (h n m : String) (c : Option String)
    (sp : String) (a : Nat) (t : Torrent)
    (hr : ReachableFrom (createTorrent h n m c sp a) t)
    (he : t.state = "error") : t.errorMessage.isSome :=
  ReachableFrom_invariant (fun hs hp => step_preserves_error_msg hs hp) hr
    (by
      intro h0
      simp only [createTorrent] at h0
      exact absurd h0 (by decide)) he

/-- Witness for the amended C5 at a concrete errored record. -/
theorem claim5_error_message_witness : errored5.errorMessage.isSome :=
  claim5_error_message "c5" "n5" "magnet:c5" none "/dl" 0 errored5 reach5e rfl

/-- A completed record, for the C6 counterexample. -/
def completed6 : Torrent :=
  { hash := "c6", name := "n6", state := "completed", progress := 1 }

/-- **C6 (counterexample).** The pause handler is *not* a no-op on a
record in state `completed`: it sets `state = "paused"` unconditionally
(the route calls `update_torrent(state="paused")` with no state check). -/
theorem claim6_counterexample :
    completed6.state = "completed" ∧
    pauseTorrents [completed6] ["c6"] = [pauseUpdate completed6] ∧
    (pauseUpdate completed6).state = "paused" :=
  ⟨rfl, by decide, rfl⟩

/-- **C6 (amended).** For every set of requested hashes: the pause
operation transitions *every* existing matching record to `paused`
regardless of its prior state (no-op only for unknown hashes), and the
resume operation transitions exactly those matching records whose state
is `paused` to `queued` and is a no-op on all others. -/
theorem claim6_pause_resume (db : List Torrent) (hashes : List String)
    (h : String) :
    getTorrentByHash (pauseTorrents db hashes) h =
      (getTorrentByHash db h).map
        (fun t => if h ∈ hashes then pauseUpdate t else t) ∧
    getTorrentByHash (resumeTorrents db hashes) h =
      (getTorrentByHash db h).map
        (fun t => if h ∈ hashes ∧ t.state = "paused" then resumeUpdate t
          else t) :=
  ⟨pauseTorrents_char hashes db h, resumeTorrents_char hashes db h⟩

/-- If the pipeline's upload succeeded and the readiness wait timed out,
the pipeline marks the item with the fixed timeout message on top of the
persisted upload fields and stops. -/
theorem startTorrentDownload_timeout (env : PipelineEnv) (db : List Torrent)
    (t : Torrent) (up : MagnetUploadResponse) (hup : env.upload = .ok up)
    (htime : waitForMagnetReady env.statuses 300 5 = .timeout) :
    startTorrentDownload env db t =
      markTorrentError (updateTorrentWith db t.hash (uploadPersist up)) t.hash
        "AllDebrid processing timeout" := by
  unfold startTorrentDownload
  simp only [hup, htime]

/-- **C7 (amended).** For every admitted item whose resolver never
reports the ready status code (nor a terminal error code) within the
300-second readiness timeout, the start pipeline marks the item `error`
with the message `"AllDebrid processing timeout"` — not the claim's
`"resolution timeout"` — the pipeline ends there, and the item's
`aria2_gid` is left exactly as it was (in particular it stays unset for a
freshly admitted item). -/
theorem claim7_resolution_timeout (env : PipelineEnv) (db : List Torrent)
    (t : Torrent) (up : MagnetUploadResponse) (hup : env.upload = .ok up)
    (hnever : ∀ i, i < 60 → nonTerminalPoll (env.statuses i))
    (hnd : (db.map Torrent.hash).Nodup) (ht : t ∈ db) :
    getTorrentByHash (startTorrentDownload env db t) t.hash =
      some (errUpdate "AllDebrid processing timeout" (uploadPersist up t)) ∧
    (errUpdate "AllDebrid processing timeout" (uploadPersist up t)).state =
      "error" ∧
    (errUpdate "AllDebrid processing timeout"
      (uploadPersist up t)).errorMessage =
        some "AllDebrid processing timeout" ∧
    (errUpdate "AllDebrid processing timeout" (uploadPersist up t)).aria2Gid =
      t.aria2Gid := by
  refine ⟨?_, rfl, rfl, rfl⟩
  rw [startTorrentDownload_timeout env db t up hup
    (waitForMagnetReady_timeout env.statuses hnever)]
  unfold markTorrentError
  rw [getTorrentByHash_update (hash_errUpdate "AllDebrid processing timeout"),
    getTorrentByHash_update (hash_uploadPersist up),
    getTorrentByHash_of_mem hnd ht]
  simp [hash_uploadPersist]

/-- Fixtures for C7: a fresh queued record and a resolver that uploads
fine but never leaves processing status. -/
def t7 : Torrent := createTorrent "c7" "n7" "magnet:c7" none "/dl" 0

def up7 : MagnetUploadResponse := { id := 1, size := 3 }

def env7 : PipelineEnv :=
  { upload := .ok up7, statuses := fun _ => { statusCode := 1 },
    unlock := fun _ => .error "unreachable",
    addDownload := fun _ _ _ => .error "unreachable" }

def err7 : Torrent := errUpdate "AllDebrid processing timeout" (uploadPersist up7 t7)

/-- **C7 (counterexample).** On the never-ready resolver the pipeline
records the message `"AllDebrid processing timeout"`, not the
`"resolution timeout"` stated by the claim (the rest of the claim —
`error` state, no engine handle — does hold on this run). -/
theorem claim7_counterexample :
    startTorrentDownload env7 [t7] t7 = [err7] ∧
    err7.state = "error" ∧
    err7.aria2Gid = none ∧
    err7.errorMessage = some "AllDebrid processing timeout" ∧
    err7.errorMessage ≠ some "resolution timeout" :=
  ⟨by decide, rfl, rfl, rfl, by decide⟩

/-- Witness for the amended C7 at the concrete never-ready resolver. -/
theorem claim7_resolution_timeout_witness :
    getTorrentByHash (startTorrentDownload env7 [t7] t7) t7.hash =
      some (errUpdate "AllDebrid processing timeout" (uploadPersist up7 t7)) ∧
    (errUpdate "AllDebrid processing timeout" (uploadPersist up7 t7)).state =
      "error" ∧
    (errUpdate "AllDebrid processing timeout"
      (uploadPersist up7 t7)).errorMessage =
        some "AllDebrid processing timeout" ∧
    (errUpdate "AllDebrid processing timeout"
      (uploadPersist up7 t7)).aria2Gid = t7.aria2Gid :=
  claim7_resolution_timeout env7 [t7] t7 up7 rfl (by decide) (by decide)
    (by decide)

/-- **C8.** For every downloading item whose queried engine status is
`complete`, the reconciliation pass transitions the item to `completed`,
forces `progress` to 1, `dlspeed` to 0, `eta` to 0, and stamps
`completion_on`. -/
theorem claim8_reconcile_complete (engine : String → Option EngineStatus)
    (now : Nat) (db : List Torrent) (t : Torrent)
    (hnd : (db.map Torrent.hash).Nodup) (ht : t ∈ db)
    (hstate : t.state = "downloading") (gid : String)
    (hgid : t.aria2Gid = some gid) (hgne : gid ≠ "")
    (st : EngineStatus) (heng : engine gid = some st)
    (hcomplete : st.status = "complete") :
    getTorrentByHash (updateDownloadingTorrents engine now db) t.hash =
      some (completeUpdate st now t) ∧
    (completeUpdate st now t).state = "completed" ∧
    (completeUpdate st now t).progress = 1 ∧
    (completeUpdate st now t).dlspeed = 0 ∧
    (completeUpdate st now t).eta = 0 ∧
    (completeUpdate st now t).completionOn = some now := by
  refine ⟨?_, rfl, rfl, rfl, rfl, rfl⟩
  rw [updateDownloadingTorrents_char engine now db hnd ht]
  unfold reconOne
  simp [hstate, hgid, hgne, heng, reconcileRecord, hcomplete]

/-- Fixtures for C8: a downloading record and an engine reporting it
complete. -/
def t8 : Torrent :=
  { hash := "t8", name := "n8", state := "downloading",
    aria2Gid := some "g8", dlspeed := 50, size := 4 }

def st8 : EngineStatus :=
  { status := "complete", totalLength := 4, completedLength := 4,
    downloadSpeed := 0, progress := 100 }

def engine8 : String → Option EngineStatus :=
  fun g => if g = "g8" then some st8 else none

/-- Witness for C8 at a concrete store and engine. -/
theorem claim8_reconcile_complete_witness :
    getTorrentByHash (updateDownloadingTorrents engine8 11 [t8]) t8.hash =
      some (completeUpdate st8 11 t8) ∧
    (completeUpdate st8 11 t8).state = "completed" ∧
    (completeUpdate st8 11 t8).progress = 1 ∧
    (completeUpdate st8 11 t8).dlspeed = 0 ∧
    (completeUpdate st8 11 t8).eta = 0 ∧
    (completeUpdate st8 11 t8).completionOn = some 11 :=
  claim8_reconcile_complete engine8 11 [t8] t8 (by decide) (by decide) rfl
    "g8" rfl (by decide) st8 (by decide) rfl

/-- Fixtures for C9: a downloading record with live counters and an
engine reporting an error for it. -/
def t9 : Torrent :=
  { hash := "t9", name := "n9", state := "downloading",
    aria2Gid := some "g9", dlspeed := 100,
    downloaded := 5, size := 10, eta := 42 }

def st9 : EngineStatus := { status := "error", errorMessage := "disk full" }

def engine9 : String → Option EngineStatus :=
  fun g => if g = "g9" then some st9 else none

/-- **C9 (counterexample).** On an engine `error` report the pass does
*not* leave the download speed unchanged: `mark_torrent_error` forces
`dlspeed = 0` (here from 100), in addition to the error transition. -/
theorem claim9_counterexample :
    t9.dlspeed = 100 ∧
    updateDownloadingTorrents engine9 0 [t9] = [errUpdate "disk full" t9] ∧
    (errUpdate "disk full" t9).dlspeed = 0 :=
  ⟨rfl, by decide, rfl⟩

/-- **C9 (amended).** For every downloading item whose queried engine
status is `error`, the reconciliation pass transitions the item to
`error` with the engine-reported message and applies no other field
update that cycle — `progress`, `downloaded`, `size` and `eta` are left
unchanged — except that the error transition also forces the download
speed to 0 (a side effect of `mark_torrent_error`). -/
theorem claim9_reconcile_error (engine : String → Option EngineStatus)
    (now : Nat) (db : List Torrent) (t : Torrent)
    (hnd : (db.map Torrent.hash).Nodup) (ht : t ∈ db)
    (hstate : t.state = "downloading") (gid : String)
    (hgid : t.aria2Gid = some gid) (hgne : gid ≠ "")
    (st : EngineStatus) (heng : engine gid = some st)
    (herr : st.status = "error") :
    getTorrentByHash (updateDownloadingTorrents engine now db) t.hash =
      some (errUpdate st.errorMessage t) ∧
    (errUpdate st.errorMessage t).state = "error" ∧
    (errUpdate st.errorMessage t).errorMessage = some st.errorMessage ∧
    (errUpdate st.errorMessage t).dlspeed = 0 ∧
    (errUpdate st.errorMessage t).progress = t.progress ∧
    (errUpdate st.errorMessage t).downloaded = t.downloaded ∧
    (errUpdate st.errorMessage t).size = t.size ∧
    (errUpdate st.errorMessage t).eta = t.eta := by
  refine ⟨?_, rfl, rfl, rfl, rfl, rfl, rfl, rfl⟩
  rw [updateDownloadingTorrents_char engine now db hnd ht]
  unfold reconOne
  have hnc : st.status ≠ "complete" := by
    rw [herr]
    decide
  simp [hstate, hgid, hgne, heng, reconcileRecord, herr, hnc]

/-- Witness for the amended C9 at the concrete error-reporting engine. -/
theorem claim9_reconcile_error_witness :
    getTorrentByHash (updateDownloadingTorrents engine9 0 [t9]) t9.hash =
      some (errUpdate st9.errorMessage t9) ∧
    (errUpdate st9.errorMessage t9).state = "error" ∧
    (errUpdate st9.errorMessage t9).errorMessage = some st9.errorMessage ∧
    (errUpdate st9.errorMessage t9).dlspeed = 0 ∧
    (errUpdate st9.errorMessage t9).progress = t9.progress ∧
    (errUpdate st9.errorMessage t9).downloaded = t9.downloaded ∧
    (errUpdate st9.errorMessage t9).size = t9.size ∧
    (errUpdate st9.errorMessage t9).eta = t9.eta :=
  claim9_reconcile_error engine9 0 [t9] t9 (by decide) (by decide) rfl "g9"
    rfl (by decide) st9 (by decide) rfl

/-- **C10.** Submitting the same origin URI twice while the record
created by the first submission still exists produces no second record:
the second submission returns `"Ok."` and leaves the store unchanged, and
exactly one record with the derived hash exists afterwards (even with a
different category, save path, or submission time the second time). -/
theorem claim10_idempotent_submit (ctx : SubmitCtx) (s : Settings)
    (cat cat2 sp sp2 : Option String) (now now2 : Nat) (db : List Torrent)
    (uri : String)
    (hnew : getTorrentByHash db (ctx.extractHash uri) = none) :
    (addTorrent ctx s cat2 sp2 now2
        (addTorrent ctx s cat sp now db [uri]).1 [uri]).1 =
      (addTorrent ctx s cat sp now db [uri]).1 ∧
    (addTorrent ctx s cat2 sp2 now2
        (addTorrent ctx s cat sp now db [uri]).1 [uri]).2 = "Ok." ∧
    ((addTorrent ctx s cat sp now db [uri]).1.filter
        (fun t => t.hash = ctx.extractHash uri)).length = 1 := by
  have hdb1 : (addTorrent ctx s cat sp now db [uri]).1 =
      db ++ [createTorrent (ctx.extractHash uri) (ctx.extractName uri) uri cat
        (sp.getD (s.downloadPath ++ "/complete")) now] := by
    simp [addTorrent, addTorrentOne, hnew]
  have hfind1 : getTorrentByHash (db ++ [createTorrent (ctx.extractHash uri)
      (ctx.extractName uri) uri cat
      (sp.getD (s.downloadPath ++ "/complete")) now]) (ctx.extractHash uri) =
      some (createTorrent (ctx.extractHash uri) (ctx.extractName uri) uri cat
        (sp.getD (s.downloadPath ++ "/complete")) now) := by
    unfold getTorrentByHash at hnew ⊢
    rw [List.find?_append, hnew]
    simp [createTorrent]
  refine ⟨?_, rfl, ?_⟩
  · rw [hdb1]
    simp [addTorrent, addTorrentOne, hfind1]
  · rw [hdb1, List.filter_append]
    have h0 : db.filter (fun t => t.hash = ctx.extractHash uri) = [] := by
      rw [List.filter_eq_nil_iff]
      intro a ha
      simpa using List.find?_eq_none.mp hnew a ha
    rw [h0]
    simp [createTorrent]

/-- Submission context for the C10 witness: the derived hash is the URI
itself, the name a constant. -/
def ctx10 : SubmitCtx :=
  { extractHash := fun u => u, extractName := fun _ => "Unknown" }

/-- Witness for C10 on an initially empty store. -/
theorem claim10_idempotent_submit_witness :
    (addTorrent ctx10 {} none none 1
        (addTorrent ctx10 {} none none 0 [] ["m10"]).1 ["m10"]).1 =
      (addTorrent ctx10 {} none none 0 [] ["m10"]).1 ∧
    (addTorrent ctx10 {} none none 1
        (addTorrent ctx10 {} none none 0 [] ["m10"]).1 ["m10"]).2 = "Ok." ∧
    ((addTorrent ctx10 {} none none 0 [] ["m10"]).1.filter
        (fun t => t.hash = ctx10.extractHash "m10")).length = 1 :=
  claim10_idempotent_submit ctx10 {} none none none none 0 1 [] "m10" rfl

end AD
